import Mathlib

/-!
Verification of the garden content-versioning core: a shallow embedding of the
git-backed `GitHandler` (file scanning, blob hashing, remote-source sync) and of
the task-result storage call sites, with theorems checking the specification's
claims against the embedded code.

Conventions of the embedding:
- subprocess git calls are modelled by their outcome: either a list of output
  lines or a `JsError` carrying the value of the JavaScript `err.code` field
  (a numeric exit code such as 128, or a string such as "ENOENT");
- promises/async become the `Except` monad, `throw` becomes `Except.error`;
- the ambient git repository state is a record of the outcomes the modelled
  subprocess calls would produce.
-/

namespace Garden

/-- Value of the JavaScript `err.code` field: a numeric subprocess exit code or
a string error code such as "ENOENT". -/
inductive ErrCode where
  | num (n : Nat)
  | str (s : String)
deriving DecidableEq, Repr

/-- A JavaScript error as observed by the catch blocks in `git.ts`: only the
`code` field is consulted. -/
structure JsError where
  code : ErrCode
deriving DecidableEq, Repr

/-- Errors thrown by the remote-source functions: `ConfigurationError` from
`parseGitUrl`, `RuntimeError` from clone/fetch failures. -/
inductive GardenError where
  | configurationError (message : String)
  | runtimeError (message : String)
deriving DecidableEq, Repr

/-- Result of `parseGitUrl` (src/unnamed/part_000 line 31): the object
`\x7b repositoryUrl: parts[0], hash: parts[1] \x7d`. A missing `parts[1]`
(JavaScript `undefined`) is modelled as `""`; both are falsy, and the falsy
case never escapes `parseGitUrl`. -/
structure ParsedUrl where
  repositoryUrl : String
  hash : String
deriving DecidableEq, Repr

/-- Accumulator pass for `jsSplit`, structurally recursive on the remaining
characters so that it evaluates in the kernel. -/
def jsSplitAux (sep : Char) : List Char → List Char → List String
  | [], acc => [String.mk acc.reverse]
  | c :: rest, acc =>
    if c = sep then String.mk acc.reverse :: jsSplitAux sep rest []
    else jsSplitAux sep rest (c :: acc)

/-- Model of JavaScript `String.prototype.split` with a one-character
separator (the source only splits on "#", tab and space): split at every
occurrence, keeping empty pieces, e.g. splitting "a##b" on "#" gives
["a", "", "b"]. -/
def jsSplit (s : String) (sep : Char) : List String := jsSplitAux sep s.data []

/-- Embedding of `parseGitUrl` (src/unnamed/part_000 lines 29-41): split the
url on "#"; if the part after the first "#" is missing or empty (falsy), throw
a `ConfigurationError`; otherwise return the pair. -/
def parseGitUrl (url : String) : Except GardenError ParsedUrl :=
  let parts := jsSplit url '#'
  let parsed : ParsedUrl := { repositoryUrl := parts.headD "", hash := (parts[1]?).getD "" }
  if parsed.hash = "" then
    .error (.configurationError
      "Repository URLs must contain a hash part pointing to a specific branch or tag (e.g. https://github.com/org/repo.git#master)")
  else
    .ok parsed

/-- Embedding of `getCommitIdFromRefList` (src/unnamed/part_000 lines 21-27):
`refList[0].split("\t")[0]`, falling back to `refList[0]` if that throws. An
empty list (JavaScript `undefined`) is modelled as `""`. -/
def getCommitIdFromRefList (refList : List String) : String :=
  match refList with
  | [] => ""
  | l :: _ => (jsSplit l '\t').headD l

/-- Intermediate file record produced from one `ls-files -s --other` output
line (src/unnamed/part_000 lines 97-105): untracked files carry no hash. -/
structure CandidateFile where
  path : String
  hash : Option String
deriving DecidableEq, Repr

/-- Final entry returned by `getFiles`: resolved absolute path and content
hash (the `VcsFile` shape). -/
structure VcsFile where
  path : String
  hash : String
deriving DecidableEq, Repr

/-- Outcomes of the git subprocess calls `getFiles` makes for one root path,
and of the `hashObject` file reads: the repository state the call runs in. -/
structure GitWorld where
  revParse : Except JsError (List String)
  lsFiles : Except JsError (List String)
  lsIgnored : Except JsError (List String)
  diffIndex : Except JsError (List String)
  fileHash : String → Except JsError String

/-- Character-level test for an absolute POSIX path (first character "/"). -/
def isAbsolutePath (p : String) : Bool :=
  match p.data with
  | c :: _ => c = '/'
  | [] => false

/-- Model of Node's `path.resolve(root, p)` for the already-normalized
segments produced by git: an absolute `p` is returned as is, a relative `p`
is joined onto `root`. -/
def jsResolve (root p : String) : String :=
  if isAbsolutePath p then p else root ++ "/" ++ p

/-- JavaScript falsiness of the optional hash field: `undefined` or `""`. -/
def jsFalsy : Option String → Bool
  | none => true
  | some s => s == ""

/-- ASCII whitespace test used by `jsTrim`. -/
def isWsChar (c : Char) : Bool :=
  c = ' ' || c = '\t' || c = '\n' || c = '\r'

/-- Model of JavaScript `String.prototype.trim`: strip whitespace from both
ends, implemented over the character list so it evaluates in the kernel. -/
def jsTrim (s : String) : String :=
  String.mk (((s.data.dropWhile isWsChar).reverse.dropWhile isWsChar).reverse)

/-- Embedding of the per-line parsing in `getFiles` (src/unnamed/part_000
lines 97-105): `line.trim().split("\t")`; one field means an untracked path,
otherwise the path is field 1 and the hash is the second space-separated token
of field 0. -/
def parseLsFilesLine (line : String) : CandidateFile :=
  let split := jsSplit (jsTrim line) '\t'
  if split.length = 1 then
    { path := split.headD "", hash := none }
  else
    { path := (split[1]?).getD "", hash := (jsSplit (split.headD "") ' ')[1]? }

/-- Embedding of `GitHandler.getModifiedFiles` (src/unnamed/part_000 lines
58-69): return the `diff-index --name-only HEAD` lines; on failure with exit
code 128 (no commit in the repository) return the empty list, otherwise
rethrow. -/
def getModifiedFiles (diffIndex : Except JsError (List String)) : Except JsError (List String) :=
  match diffIndex with
  | .ok lines => .ok lines
  | .error e => if e.code = .num 128 then .ok [] else .error e

/-- Embedding of the candidate filtering in `getFiles` (src/unnamed/part_000
lines 111-113): first keep files matching the include patterns (everything if
`include` is `undefined`), then drop files listed as ignored. -/
def filterCandidates (mg : String → List String → Bool) (includePats : Option (List String))
    (ignored : List String) (files : List CandidateFile) : List CandidateFile :=
  (files.filter (fun f =>
    match includePats with
    | none => true
    | some pats => mg f.path pats)).filter
    (fun f => !ignored.contains f.path)

/-- Embedding of the per-entry hashing step in `getFiles` (src/unnamed/part_000
lines 115-131): if the entry has no (or a falsy) index hash, or its resolved
path is in the modified set, recompute via `hashObject`; a hashing failure with
code 128 or "ENOENT" leaves the hash empty (the entry is filtered out by the
caller), any other failure is rethrown; otherwise reuse the index hash. -/
def processEntry (fileHash : String → Except JsError String) (modified : List String)
    (root : String) (f : CandidateFile) : Except JsError VcsFile :=
  if jsFalsy f.hash || modified.contains (jsResolve root f.path) then
    match fileHash (jsResolve root f.path) with
    | .ok h => .ok { path := jsResolve root f.path, hash := h }
    | .error e =>
      if e.code = .num 128 || e.code = .str "ENOENT" then
        .ok { path := jsResolve root f.path, hash := "" }
      else
        .error e
  else
    .ok { path := jsResolve root f.path, hash := f.hash.getD "" }

/-- Embedding of the try/catch around the two `ls-files` calls in `getFiles`
(src/unnamed/part_000 lines 83-95): run `ls-files -s --other` then
`ls-files --ignored`; a failure with exit code 128 is swallowed, leaving
whatever had been assigned so far (so if the first call succeeds and the
second fails with 128, the candidate lines are kept and the ignored list
stays empty); any other failure is rethrown. -/
def scanFiles (w : GitWorld) : Except JsError (List String × List String) :=
  match w.lsFiles with
  | .error e => if e.code = .num 128 then .ok ([], []) else .error e
  | .ok ls =>
    match w.lsIgnored with
    | .error e => if e.code = .num 128 then .ok (ls, []) else .error e
    | .ok ig => .ok (ls, ig)

/-- Embedding of `GitHandler.getFiles` (src/unnamed/part_000 lines 71-133).
The glob matcher `matchGlobs` from `util/fs` is a parameter `mg`. Control flow
follows the source: `rev-parse --show-toplevel` runs first, outside any
try/catch (its error is not handled); then the guarded `ls-files` scan, line
parsing, the modified set resolved against the git root, candidate filtering,
per-entry hashing, and finally entries with an empty hash are dropped. -/
def getFiles (mg : String → List String → Bool) (w : GitWorld) (path : String)
    (includePats : Option (List String)) : Except JsError (List VcsFile) :=
  match w.revParse with
  | .error e => .error e
  | .ok revLines =>
    match scanFiles w with
    | .error e => .error e
    | .ok (lines, ignored) =>
      match getModifiedFiles w.diffIndex with
      | .error e => .error e
      | .ok modifiedRel =>
        match (filterCandidates mg includePats ignored
            (lines.map parseLsFilesLine)).mapM
            (processEntry w.fileHash
              (modifiedRel.map (jsResolve (revLines.headD ""))) path) with
        | .error e => .error e
        | .ok hashed => .ok (hashed.filter (fun f => f.hash != ""))

/-- Local state of a remote-source checkout: whether the clone directory
exists on disk (`pathExists(absPath)`), and the commit the checkout is at
(what `show-ref --hash <ref>` reports). -/
structure RemoteState where
  cloned : Bool
  localCommit : String
deriving DecidableEq, Repr

/-- Outcomes of the network-facing git calls made by the remote-source
functions: the output lines of `ls-remote <url> <ref>`, and whether a clone or
a fetch/reset would fail. -/
structure RemoteWorld where
  lsRemote : List String
  cloneFails : Bool
  fetchFails : Bool
deriving DecidableEq, Repr

/-- Embedding of `GitHandler.ensureRemoteSource` (src/unnamed/part_000 lines
136-162): if the checkout directory already exists, do nothing; otherwise
parse the url and perform a depth-1 clone restricted to the ref, which leaves
the checkout at the remote head (`RuntimeError` on failure). Returns the new
state and the list of git commands that mutated it. -/
def ensureRemoteSource (w : RemoteWorld) (url : String) (s : RemoteState) :
    Except GardenError (RemoteState × List String) :=
  if s.cloned then
    .ok (s, [])
  else
    match parseGitUrl url with
    | .error e => .error e
    | .ok _ =>
      if w.cloneFails then
        .error (.runtimeError "Downloading remote source failed")
      else
        .ok ({ cloned := true, localCommit := getCommitIdFromRefList w.lsRemote }, ["clone"])

/-- Embedding of `GitHandler.updateRemoteSource` (src/unnamed/part_000 lines
164-195): parse the url, ensure the clone exists, run `remote update` (which
refreshes remote-tracking metadata but does not move the checkout), read the
remote commit id from `ls-remote` and the local commit id from
`show-ref --hash`; if they differ, fetch depth-1 and hard-reset the checkout
to the remote head (`RuntimeError` on failure) and report "Source updated",
otherwise mutate nothing and report "Source already up to date". Returns the
final state, the ordered list of git commands run after the parse, and the
reported message. -/
def updateRemoteSource (w : RemoteWorld) (url : String) (s : RemoteState) :
    Except GardenError (RemoteState × List String × String) :=
  match parseGitUrl url with
  | .error e => .error e
  | .ok _ =>
    match ensureRemoteSource w url s with
    | .error e => .error e
    | .ok (s1, acts) =>
      let acts := acts ++ ["remote update"]
      let remoteCommitId := getCommitIdFromRefList w.lsRemote
      let localCommitId := getCommitIdFromRefList [s1.localCommit]
      if localCommitId ≠ remoteCommitId then
        if w.fetchFails then
          .error (.runtimeError "Updating remote source failed")
        else
          .ok ({ cloned := true, localCommit := remoteCommitId },
            acts ++ ["fetch", "reset"], "Source updated")
      else
        .ok (s1, acts, "Source already up to date")

/-! SHA-1, implemented over byte lists (`List Nat`, each element < 256) with
32-bit words as `Nat` reduced modulo `2 ^ 32`, so that `hashObject` can be
stated and evaluated concretely. -/

/-- Left-rotation of a 32-bit word (value below `2 ^ 32`). -/
def rotl (b n : Nat) : Nat := ((n <<< b) + (n >>> (32 - b))) % 4294967296

/-- Big-endian byte expansion of `n` into `k` bytes. -/
def beBytes (k n : Nat) : List Nat :=
  (List.range k).map (fun i => (n >>> (8 * (k - 1 - i))) % 256)

/-- SHA-1 message padding: append `0x80`, zero bytes up to 56 mod 64, then the
bit length as 8 big-endian bytes. -/
def sha1pad (m : List Nat) : List Nat :=
  let L := m.length
  let zeros := (119 - (L % 64)) % 64
  m ++ [128] ++ List.replicate zeros 0 ++ beBytes 8 (8 * L)

/-- Group a byte list into big-endian 32-bit words. -/
def toWords : List Nat → List Nat
  | a :: b :: c :: d :: rest => (((a * 256 + b) * 256 + c) * 256 + d) :: toWords rest
  | _ => []

/-- Split a byte list into 64-byte chunks, structurally recursing on a fuel
bound (one unit of fuel is ample for one chunk, so `l.length` suffices). -/
def chunks64Fuel : Nat → List Nat → List (List Nat)
  | _, [] => []
  | 0, _ :: _ => []
  | fuel + 1, x :: xs => ((x :: xs).take 64) :: chunks64Fuel fuel ((x :: xs).drop 64)

/-- Split a byte list into 64-byte chunks. -/
def chunks64 (l : List Nat) : List (List Nat) := chunks64Fuel l.length l

/-- Extend the 16 words of a chunk to the 80-word SHA-1 message schedule. -/
def extendWords (ws : Array Nat) : Array Nat :=
  (List.range 64).foldl (fun a i =>
    let j := i + 16
    a.push (rotl 1 ((a.getD (j - 3) 0) ^^^ (a.getD (j - 8) 0) ^^^
      (a.getD (j - 14) 0) ^^^ (a.getD (j - 16) 0)))) ws

/-- The five 32-bit state words of SHA-1. -/
structure Sha1State where
  h0 : Nat
  h1 : Nat
  h2 : Nat
  h3 : Nat
  h4 : Nat
deriving DecidableEq, Repr

/-- SHA-1 initial state. -/
def sha1Init : Sha1State :=
  { h0 := 1732584193, h1 := 4023233417, h2 := 2562383102,
    h3 := 271733878, h4 := 3285377520 }

/-- SHA-1 compression of one 64-byte chunk into the running state. -/
def sha1Compress (st : Sha1State) (block : List Nat) : Sha1State :=
  let ws := extendWords (toWords block).toArray
  let r := (List.range 80).foldl (fun t i =>
    match t with
    | (a, b, c, d, e) =>
      let f :=
        if i < 20 then (b &&& c) ||| ((b ^^^ 4294967295) &&& d)
        else if i < 40 then b ^^^ c ^^^ d
        else if i < 60 then (b &&& c) ||| (b &&& d) ||| (c &&& d)
        else b ^^^ c ^^^ d
      let k :=
        if i < 20 then 1518500249
        else if i < 40 then 1859775393
        else if i < 60 then 2400959708
        else 3395469782
      let temp := (rotl 5 a + f + e + k + ws.getD i 0) % 4294967296
      (temp, a, rotl 30 b, c, d)) (st.h0, st.h1, st.h2, st.h3, st.h4)
  match r with
  | (a, b, c, d, e) =>
    { h0 := (st.h0 + a) % 4294967296, h1 := (st.h1 + b) % 4294967296,
      h2 := (st.h2 + c) % 4294967296, h3 := (st.h3 + d) % 4294967296,
      h4 := (st.h4 + e) % 4294967296 }

/-- Lowercase hex digit for a value below 16. -/
def hexDigit (n : Nat) : Char :=
  if n < 10 then Char.ofNat (48 + n) else Char.ofNat (87 + n)

/-- Eight-digit lowercase hex rendering of a 32-bit word. -/
def hex8 (n : Nat) : String :=
  String.mk ((List.range 8).map (fun i => hexDigit ((n >>> (4 * (7 - i))) % 16)))

/-- SHA-1 digest of a byte list, as a 40-character lowercase hex string (the
format the `hasha` library returns for algorithm "sha1"). -/
def sha1hex (m : List Nat) : String :=
  let st := (chunks64 (sha1pad m)).foldl sha1Compress sha1Init
  hex8 st.h0 ++ hex8 st.h1 ++ hex8 st.h2 ++ hex8 st.h3 ++ hex8 st.h4

/-- Byte expansion of an ASCII string. -/
def asciiBytes (s : String) : List Nat := s.data.map Char.toNat

/-- Embedding of `GitHandler.hashObject` (src/unnamed/part_000 lines 200-207):
with the file's content as a byte list, stream the header
`"blob " ++ byteLength ++ NUL` followed by the raw file bytes into a SHA-1
digest (`info.size` from `stat` is the content's byte length). -/
def hashObject (content : List Nat) : String :=
  sha1hex (asciiBytes ("blob " ++ toString content.length) ++ [0] ++ content)

/-- Modelled from the spec: `tailString` from `util/string` is not included in
the source snapshot; per the spec, output exceeding the ceiling is "truncated,
retaining the *tail* of the output", so a string longer than `maxLength` keeps
its trailing `maxLength` characters. -/
def tailString (s : String) (maxLength : Nat) : String :=
  if s.length > maxLength then s.drop (s.length - maxLength) else s

/-- Output of `runPod`: only the `output` field matters to the stored-result
claims. -/
structure PodRunResult where
  output : String
deriving DecidableEq, Repr

/-- The task-result fields relevant to storage: the output that is passed to
`storeTaskResult`, and the task name attached to it. -/
structure StoredTaskResult where
  output : String
  taskName : String
deriving DecidableEq, Repr

/-- Embedding of the result construction in `runHelmTask`
(src/garden-service/src/plugins/kubernetes/helm/run.ts lines 83-88): the pod
output is truncated with `tailString` to `MAX_RUN_RESULT_OUTPUT_LENGTH`
(a parameter `maxLen` here, since the constant's module is not in the
snapshot) before the result is stored. -/
def runHelmTaskStored (maxLen : Nat) (res : PodRunResult) (taskName : String) :
    StoredTaskResult :=
  { output := tailString res.output maxLen, taskName := taskName }

/-- Embedding of the result construction in `runContainerTask`
(src/garden-service/src/plugins/kubernetes/container/run.ts line 159): the pod
output is stored as is, with no truncation applied. -/
def runContainerTaskStored (res : PodRunResult) (taskName : String) :
    StoredTaskResult :=
  { output := res.output, taskName := taskName }

/-- Sample glob matcher for concrete instances: a path matches when it is
literally one of the patterns. -/
def matchExact (p : String) (pats : List String) : Bool := pats.contains p

/-- Repository state for a root that is not inside a git repository: every
scan command exits with code 128. -/
def notARepoWorld : GitWorld :=
  { revParse := .error { code := .num 128 }
    lsFiles := .error { code := .num 128 }
    lsIgnored := .error { code := .num 128 }
    diffIndex := .error { code := .num 128 }
    fileHash := fun _ => .error { code := .str "ENOENT" } }

/-- Repository state with one tracked file (`kept.txt`, index hash "aaaa") and
one untracked file (`gone.txt`) that vanishes before it can be hashed. -/
def demoWorld : GitWorld :=
  { revParse := .ok ["/p"]
    lsFiles := .ok ["100644 aaaa 0\tkept.txt", "gone.txt"]
    lsIgnored := .ok []
    diffIndex := .ok []
    fileHash := fun p =>
      if p = "/p/kept.txt" then .ok "h1" else .error { code := .str "ENOENT" } }

/-- Repository state with three tracked files where `a.go` is listed by the
project-specific ignore rules. -/
def ignoreWorld : GitWorld :=
  { revParse := .ok ["/p"]
    lsFiles := .ok ["100644 h1 0\ta.go", "100644 h2 0\tb.go", "100644 h3 0\tc.md"]
    lsIgnored := .ok ["a.go"]
    diffIndex := .ok []
    fileHash := fun _ => .error { code := .str "ENOENT" } }

set_option maxRecDepth 100000

/-- C3: `parseGitUrl` on a string with no "#refName" suffix throws a
`ConfigurationError`, and on "repositoryUrl#refName" returns the two
components without error. -/
theorem parseGitUrl_requires_ref :
    (∃ msg, parseGitUrl "https://example.com/r.git" =
      .error (.configurationError msg)) ∧
    parseGitUrl "https://example.com/r.git#main" =
      .ok { repositoryUrl := "https://example.com/r.git", hash := "main" } :=
  ⟨⟨_, rfl⟩, rfl⟩

/-- C10 counterexample: "https://host/r.git##b" contains two "#" separators
(three split parts), yet `parseGitUrl` throws a `ConfigurationError` instead
of returning the text before the first "#" and the (empty) segment between
the first and second "#". -/
theorem parseGitUrl_multi_hash_counterexample :
    (jsSplit "https://host/r.git##b" '#').length = 3 ∧
    (∃ msg, parseGitUrl "https://host/r.git##b" =
      .error (.configurationError msg)) :=
  ⟨rfl, ⟨_, rfl⟩⟩

/-- C10 amended: for every input string whose segment between the first and
second "#" is non-empty (in particular any input with two or more "#"
separators and a non-empty ref segment), `parseGitUrl` returns the text
before the first "#" as `repositoryUrl` and that segment as the ref name,
silently discarding everything after the second "#"; if that segment is
empty, `parseGitUrl` instead throws a `ConfigurationError`. -/
theorem parseGitUrl_multi_hash_amended :
    ∀ s : String, (((jsSplit s '#')[1]?).getD "") ≠ "" →
      parseGitUrl s =
        .ok ⟨(jsSplit s '#').headD "", ((jsSplit s '#')[1]?).getD ""⟩ := by
  intro s h
  unfold parseGitUrl
  simp [h]

/-- Witness for the amended C10 claim at the concrete input
"https://host/r.git#a#b". -/
theorem parseGitUrl_multi_hash_amended_witness :
    parseGitUrl "https://host/r.git#a#b" =
      .ok { repositoryUrl := "https://host/r.git", hash := "a" } := by
  rw [parseGitUrl_multi_hash_amended "https://host/r.git#a#b" (by decide)]
  rfl

/-- C8: `getModifiedFiles` turns a `diff-index` failure with exit code 128
(zero-commit repository) into the empty list, and rethrows a failure with any
other code. -/
theorem getModifiedFiles_zero_commits :
    (∀ e : JsError, e.code = .num 128 →
      getModifiedFiles (.error e) = .ok []) ∧
    (∀ e : JsError, e.code ≠ .num 128 →
      getModifiedFiles (.error e) = .error e) := by
  constructor <;> intro e h <;> simp [getModifiedFiles, h]

/-- Witness for C8: exit code 128 yields the empty list, exit code 1 is
rethrown. -/
theorem getModifiedFiles_zero_commits_witness :
    getModifiedFiles (.error { code := .num 128 }) = .ok [] ∧
    getModifiedFiles (.error { code := .num 1 }) =
      .error { code := .num 1 } :=
  ⟨getModifiedFiles_zero_commits.1 { code := .num 128 } rfl,
   getModifiedFiles_zero_commits.2 { code := .num 1 } (by decide)⟩

/-- C1 (code bug): the spec says a root that is not inside a git repository
(scan commands exit with code 128) makes `getFiles` return an empty result
without throwing, but `rev-parse --show-toplevel` runs outside the try/catch
that handles exit code 128, so its error escapes `getFiles`. -/
theorem getFiles_throws_outside_repo :
    getFiles matchExact notARepoWorld "/project" none =
      .error { code := .num 128 } := rfl

/-- C9 (code bug): with a size ceiling of 2, `runHelmTask` stores the output
truncated to its trailing 2 characters, but `runContainerTask` stores the
full 5-character output untruncated, contradicting the claim that every
stored task result's oversized output is truncated to its tail. -/
theorem runContainerTask_stores_untruncated :
    (runContainerTaskStored { output := "aaabb" } "task").output = "aaabb" ∧
    "aaabb".length > 2 ∧
    (runHelmTaskStored 2 { output := "aaabb" } "task").output = "bb" := by
  constructor
  · rfl
  · constructor
    · decide
    · rfl

/-- C2: every entry `getFiles` returns has a non-empty hash, and concretely a
candidate whose file vanishes before hashing (ENOENT) is omitted from the
result entirely rather than returned with an empty hash. -/
theorem getFiles_entries_have_nonempty_hash :
    (∀ (mg : String → List String → Bool) (w : GitWorld) (path : String)
      (includePats : Option (List String)) (files : List VcsFile),
      getFiles mg w path includePats = .ok files → ∀ f ∈ files, f.hash ≠ "") ∧
    getFiles matchExact demoWorld "/p" none =
      .ok [{ path := "/p/kept.txt", hash := "aaaa" }] := by
  constructor
  · intro mg w path includePats files h f hf
    unfold getFiles at h
    repeat' split at h
    any_goals exact Except.noConfusion h
    injection h with h
    subst h
    exact bne_iff_ne.mp (List.mem_filter.mp hf).2
  · rfl

/-- Witness for C2: the entry returned for the concrete repository state
`demoWorld` has a non-empty hash. -/
theorem getFiles_entries_have_nonempty_hash_witness :
    ({ path := "/p/kept.txt", hash := "aaaa" } : VcsFile).hash ≠ "" :=
  getFiles_entries_have_nonempty_hash.1 matchExact demoWorld "/p" none
    [{ path := "/p/kept.txt", hash := "aaaa" }] (by rfl)
    { path := "/p/kept.txt", hash := "aaaa" } (by simp)

/-- C5: a candidate that is listed as ignored never survives the filtering
step, even when it matches an include pattern (the include filter runs first,
then the ignored set is subtracted); concretely, with include patterns
matching `a.go` and `b.go` and with `a.go` ignored, only `b.go` is
returned. -/
theorem ignore_rule_wins :
    (∀ (mg : String → List String → Bool) (includePats : Option (List String))
      (ignored : List String) (files : List CandidateFile) (f : CandidateFile),
      (match includePats with
       | none => true
       | some pats => mg f.path pats) = true →
      ignored.contains f.path = true →
      f ∉ filterCandidates mg includePats ignored files) ∧
    getFiles matchExact ignoreWorld "/p" (some ["a.go", "b.go"]) =
      .ok [{ path := "/p/b.go", hash := "h2" }] := by
  constructor
  · intro mg includePats ignored files f _ hig hmem
    simp only [filterCandidates, List.mem_filter] at hmem
    rw [hig] at hmem
    simp at hmem
  · rfl

/-- Witness for C5: the ignored candidate `a.go` is excluded even though it
matches the include patterns. -/
theorem ignore_rule_wins_witness :
    ({ path := "a.go", hash := some "h1" } : CandidateFile) ∉
      filterCandidates matchExact (some ["a.go", "b.go"]) ["a.go"]
        [{ path := "a.go", hash := some "h1" }] :=
  ignore_rule_wins.1 matchExact (some ["a.go", "b.go"]) ["a.go"]
    [{ path := "a.go", hash := some "h1" }]
    { path := "a.go", hash := some "h1" } (by decide) (by decide)

/-- C6: the per-entry hashing step reuses the index hash exactly when the
entry carries a (non-falsy) index hash and its resolved path is not in the
modified set; otherwise it stores whatever `hashObject` computes for the
resolved path. -/
theorem hash_reuse_exactly_when :
    ∀ (fileHash : String → Except JsError String) (modified : List String)
      (root : String) (f : CandidateFile),
    (∀ h, f.hash = some h → h ≠ "" →
      modified.contains (jsResolve root f.path) = false →
      processEntry fileHash modified root f =
        .ok { path := jsResolve root f.path, hash := h }) ∧
    (∀ d, (jsFalsy f.hash || modified.contains (jsResolve root f.path)) = true →
      fileHash (jsResolve root f.path) = .ok d →
      processEntry fileHash modified root f =
        .ok { path := jsResolve root f.path, hash := d }) := by
  intro fileHash modified root f
  constructor
  · intro h hh hne hmod
    have hfal : jsFalsy f.hash = false := by simp [hh, jsFalsy, hne]
    unfold processEntry
    rw [hfal, hmod]
    simp [hh]
  · intro d hcond hok
    unfold processEntry
    rw [hcond]
    simp [hok]

/-- Witness for C6: a tracked unmodified entry keeps its index hash "h9"
without consulting the hasher, and an untracked entry stores the recomputed
hash "d7". -/
theorem hash_reuse_exactly_when_witness :
    processEntry (fun _ => .error { code := .str "ENOENT" }) [] "/p"
      { path := "a.txt", hash := some "h9" } =
      .ok { path := "/p/a.txt", hash := "h9" } ∧
    processEntry (fun _ => .ok "d7") [] "/p"
      { path := "b.txt", hash := none } =
      .ok { path := "/p/b.txt", hash := "d7" } := by
  constructor
  · exact (hash_reuse_exactly_when (fun _ => .error { code := .str "ENOENT" })
      [] "/p" { path := "a.txt", hash := some "h9" }).1 "h9" rfl (by decide) rfl
  · exact (hash_reuse_exactly_when (fun _ => .ok "d7")
      [] "/p" { path := "b.txt", hash := none }).2 "d7" rfl rfl

/-- C4: when the local commit id of the pinned (already cloned) checkout
equals the remote commit id for the ref, `updateRemoteSource` reports
"Source already up to date", runs only `remote update` (no fetch, no reset),
and leaves the state unmutated; consequently a second call behaves
identically, so update is idempotent. -/
theorem updateRemoteSource_idempotent_when_up_to_date :
    ∀ (w : RemoteWorld) (url : String) (s : RemoteState) (p : ParsedUrl),
    parseGitUrl url = .ok p → s.cloned = true →
    getCommitIdFromRefList [s.localCommit] = getCommitIdFromRefList w.lsRemote →
    updateRemoteSource w url s =
      .ok (s, ["remote update"], "Source already up to date") ∧
    (updateRemoteSource w url s).bind (fun r => updateRemoteSource w url r.1) =
      .ok (s, ["remote update"], "Source already up to date") := by
  intro w url s p hp hc heq
  have h1 : updateRemoteSource w url s =
      .ok (s, ["remote update"], "Source already up to date") := by
    unfold updateRemoteSource ensureRemoteSource
    rw [hp, hc]
    simp [heq]
  refine ⟨h1, ?_⟩
  rw [h1]
  exact h1

/-- Witness for C4: a cloned checkout at commit "abc123" with the remote ref
also at "abc123" is reported as already up to date and left unchanged. -/
theorem updateRemoteSource_idempotent_when_up_to_date_witness :
    updateRemoteSource
      { lsRemote := ["abc123\trefs/heads/main"], cloneFails := false,
        fetchFails := false }
      "https://example.com/r.git#main"
      { cloned := true, localCommit := "abc123" } =
      .ok ({ cloned := true, localCommit := "abc123" },
        ["remote update"], "Source already up to date") :=
  (updateRemoteSource_idempotent_when_up_to_date
    { lsRemote := ["abc123\trefs/heads/main"], cloneFails := false,
      fetchFails := false }
    "https://example.com/r.git#main"
    { cloned := true, localCommit := "abc123" }
    { repositoryUrl := "https://example.com/r.git", hash := "main" }
    (by rfl) rfl (by rfl)).1

/-- C7: `hashObject` digests the header "blob " ++ byteLength ++ NUL followed
by the raw file bytes with SHA-1, and reproduces `git hash-object`: the empty
file hashes to the well-known empty-blob id and the file "hello\n" to the id
git assigns it. -/
theorem hashObject_reproduces_git_blob_hash :
    (∀ content : List Nat, hashObject content =
      sha1hex (asciiBytes ("blob " ++ toString content.length) ++ [0] ++ content)) ∧
    hashObject [] = "e69de29bb2d1d6434b8b29ae775ad8c2e48c5391" ∧
    hashObject (asciiBytes "hello\n") =
      "ce013625030ba8dba906f756967f9e9ca394464a" :=
  ⟨fun _ => rfl, by rfl, by rfl⟩

end Garden
